import Mathlib

/-!
Verification of the order-lifecycle engine and web frontend of the
microservices-architecture-demo repository.

The React order form and the generic data table are embedded from
`web/src/pages/OrdersPage.tsx` and `web/src/components/DataTable.tsx`.
The orders backend (validator, state machine, saga orchestrator) is not
part of the checked-in sources, so those components are modelled from the
specification (sections 4.1 to 4.4) and marked as such in their doc
comments.

Monetary amounts are modelled as integers: the specification demands
fixed-point money with zero tolerance (section 4.1), and no claim under
check depends on fractional cents or float rounding.
-/

namespace MicroDemo

/-- Line item of an order as built by the order form: `(sku, quantity, price)`
(`web/src/pages/OrdersPage.tsx`, `currentItem` / `formData.items`). -/
structure OrderItem where
  sku : String
  quantity : Int
  price : Int
deriving DecidableEq

/-- Total recomputation of `OrdersPage.tsx` lines 66-72:
`items.reduce((sum, item) => sum + price * item.quantity, 0)`. -/
def computeTotal (items : List OrderItem) : Int :=
  items.foldl (fun sum item => sum + item.price * item.quantity) 0

/-- An order as the frontend sees it (`web/src/types/index.ts` `Order`,
with the `items` array used by `openEditModal`). -/
structure FrontOrder where
  id : String
  user_id : Int
  total : Int
  status : String
  items : List OrderItem
deriving DecidableEq

/-- The `formData` state of `OrdersPage` (lines 13-19). -/
structure FormState where
  id : String
  user_id : Int
  total : Int
  status : String
  items : List OrderItem
deriving DecidableEq

/-- The `useEffect` of lines 66-72: whenever `formData.items` changes the
total is overwritten with the sum computed from the items. -/
def recalcTotal (f : FormState) : FormState :=
  { f with total := computeTotal f.items }

/-- Opening the modal: `openCreateModal` (line 74) or `openEditModal`
(line 82). Both set a fresh `items` array, so the auto-calculation effect
fires right after either one. -/
def openForm : Option FrontOrder → FormState
  | none => recalcTotal { id := "", user_id := 0, total := 0, status := "pending", items := [] }
  | some o =>
      recalcTotal
        { id := o.id, user_id := o.user_id, total := o.total, status := o.status,
          items := o.items }

/-- The `addItem` callback (lines 101-111): the current item is appended
only when its SKU is non-empty, its quantity is positive and its price is
positive; the items change then triggers the total recomputation. -/
def addItem (f : FormState) (current : OrderItem) : FormState :=
  if current.sku = "" ∨ current.quantity ≤ 0 ∨ current.price ≤ 0 then f
  else recalcTotal { f with items := f.items ++ [current] }

/-- The `removeItem` callback (lines 113-118):
`items.filter((_, i) => i !== index)`, followed by the recomputation. -/
def removeItem (f : FormState) (index : Nat) : FormState :=
  recalcTotal
    { f with items := (f.items.enum.filter (fun p => p.1 != index)).map (fun p => p.2) }

/-- User interactions the open order form supports. -/
inductive FormEvent where
  | addItem (current : OrderItem)
  | removeItem (index : Nat)
  | setId (s : String)
  | setUserId (n : Int)
  | setStatus (s : String)
deriving DecidableEq

/-- One state update of the form, with the items-change effect applied. -/
def stepForm (f : FormState) : FormEvent → FormState
  | .addItem c => addItem f c
  | .removeItem i => removeItem f i
  | .setId s => { f with id := s }
  | .setUserId n => { f with user_id := n }
  | .setStatus s => { f with status := s }

/-- Payload submitted on create (`handleSubmit`, line 128): the whole
`formData`. -/
structure OrderCreatePayload where
  id : String
  user_id : Int
  total : Int
  status : String
  items : List OrderItem
deriving DecidableEq

/-- Payload submitted on edit (`handleSubmit`, lines 125-126):
`const { id, ...updateData } = formData` — everything except `id`. -/
structure OrderUpdatePayload where
  user_id : Int
  total : Int
  status : String
  items : List OrderItem
deriving DecidableEq

/-- Create submission (`createMutation.mutate(formData)`). -/
def submitCreate (f : FormState) : OrderCreatePayload :=
  { id := f.id, user_id := f.user_id, total := f.total, status := f.status, items := f.items }

/-- Update submission (`updateMutation.mutate({id, data: updateData})`). -/
def submitUpdate (f : FormState) : OrderUpdatePayload :=
  { user_id := f.user_id, total := f.total, status := f.status, items := f.items }

/-- The options of the status select of the order form (lines 343-347). -/
def statusOptions : List String :=
  ["pending", "completed", "cancelled"]

/-- The five order statuses of the specification (section 3). -/
def specStatusNames : List String :=
  ["pending", "processing", "shipped", "delivered", "cancelled"]

/-- Invariant: the form total equals the sum computed from the items. -/
def totalInv (f : FormState) : Prop :=
  f.total = computeTotal f.items

/-- A table row of `DataTable` (`web/src/components/DataTable.tsx`): an
association of column keys to displayable values; `none` models a JS
`null`/`undefined` entry, `some v` a value whose `toString()` is `v`. -/
abbrev Row := List (String × Option String)

/-- Property access `item[key]` of the filter loop. -/
def getVal (r : Row) (key : String) : Option String :=
  match r.find? (fun p => p.1 == key) with
  | some p => p.2
  | none => none

/-- JS `toLowerCase()` on the model of strings. -/
def lowerStr (s : String) : String :=
  String.mk (s.data.map Char.toLower)

def startsWithChars : List Char → List Char → Bool
  | [], _ => true
  | _ :: _, [] => false
  | a :: as, b :: bs => a == b && startsWithChars as bs

def includesChars (pat : List Char) : List Char → Bool
  | [] => pat.isEmpty
  | c :: rest => startsWithChars pat (c :: rest) || includesChars pat rest

/-- JS `s.includes(pat)`: substring containment. -/
def strIncludes (s pat : String) : Bool :=
  includesChars pat.data s.data

/-- The filter predicate of `DataTable.tsx` lines 47-53:
`searchKeys.some(key => item[key]?.toString().toLowerCase().includes(searchLower))`. -/
def rowMatches (searchKeys : List String) (term : String) (r : Row) : Bool :=
  searchKeys.any fun key =>
    match getVal r key with
    | none => false
    | some v => strIncludes (lowerStr v) (lowerStr term)

/-- Sort direction state of `DataTable` (line 31). -/
inductive SortOrder where
  | asc
  | desc
deriving DecidableEq

/-- Row order induced by the ascending JS comparator of lines 62-65: the
comparator returns a non-positive number on `(a, b)` exactly when
`key a ≤ key b`. -/
def ascRel {T K : Type} [LinearOrder K] (key : T → K) (a b : T) : Prop :=
  key a ≤ key b

/-- Row order induced by the descending comparator (`-comparison`). -/
def descRel {T K : Type} [LinearOrder K] (key : T → K) (a b : T) : Prop :=
  key b ≤ key a

instance {T K : Type} [LinearOrder K] (key : T → K) : DecidableRel (ascRel key) :=
  fun a b => inferInstanceAs (Decidable (key a ≤ key b))

instance {T K : Type} [LinearOrder K] (key : T → K) : DecidableRel (descRel key) :=
  fun a b => inferInstanceAs (Decidable (key b ≤ key a))

instance {T K : Type} [LinearOrder K] (key : T → K) : IsTotal T (ascRel key) :=
  ⟨fun a b => le_total (key a) (key b)⟩

instance {T K : Type} [LinearOrder K] (key : T → K) : IsTrans T (ascRel key) :=
  ⟨fun _ _ _ h1 h2 => le_trans h1 h2⟩

instance {T K : Type} [LinearOrder K] (key : T → K) : IsTotal T (descRel key) :=
  ⟨fun a b => le_total (key b) (key a)⟩

instance {T K : Type} [LinearOrder K] (key : T → K) : IsTrans T (descRel key) :=
  ⟨fun _ _ _ h1 h2 => le_trans h2 h1⟩

/-- The sort step of `DataTable.tsx` lines 57-67: `[...result].sort(cmp)`.
JS `Array.prototype.sort` is stable and produces a list ordered by the
comparator; it is modelled by insertion sort over the comparator order,
with the selected column projected by `key`. -/
def sortRows {T K : Type} [LinearOrder K] (key : T → K) : SortOrder → List T → List T
  | .asc, data => List.insertionSort (ascRel key) data
  | .desc, data => List.insertionSort (descRel key) data

/-- The whole `filteredAndSortedData` memo (lines 42-70): filter when
searching is on and the term is a non-empty string, then sort when a sort
column is selected (the column projection is abstracted as `sortKey`). -/
def displayedRows {K : Type} [LinearOrder K] (searchable : Bool) (searchKeys : List String)
    (term : String) (sortKey : Option (Row → K)) (ord : SortOrder) (data : List Row) :
    List Row :=
  let result := if searchable && !(term == "") then data.filter (rowMatches searchKeys term) else data
  match sortKey with
  | none => result
  | some key => sortRows key ord result

/-- Spec-side reading of the claim: some listed key holds a non-null value
whose string form, lowercased, contains the lowercased search term. -/
def specRowMatch (searchKeys : List String) (term : String) (r : Row) : Prop :=
  ∃ key ∈ searchKeys, ∃ v, getVal r key = some v ∧ strIncludes (lowerStr v) (lowerStr term) = true

/-- Modelled from the spec: the five order statuses of section 3; the
orders service that owns them is not under the checked-in sources. -/
inductive OrderStatus where
  | pending
  | processing
  | shipped
  | delivered
  | cancelled
deriving DecidableEq, Fintype

/-- Modelled from the spec: the inventory side effect a transition of the
section 4.2 table requires. -/
inductive InvEffect where
  | noEffect
  | releaseItems
  | reserveItems
deriving DecidableEq

/-- Modelled from the spec: the transition table of section 4.2; a pair
absent from the table is illegal (`none`). -/
def legalTransition : OrderStatus → OrderStatus → Option InvEffect
  | .pending, .processing => some .noEffect
  | .processing, .shipped => some .noEffect
  | .shipped, .delivered => some .noEffect
  | .pending, .cancelled => some .releaseItems
  | .processing, .cancelled => some .releaseItems
  | .shipped, .cancelled => some .releaseItems
  | .cancelled, .pending => some .reserveItems
  | _, _ => none

/-- The legal `(from, to)` pairs exactly as the section 4.2 table lists
them, used to cross-check `legalTransition`. -/
def legalPairs : List (OrderStatus × OrderStatus) :=
  [(.pending, .processing), (.processing, .shipped), (.shipped, .delivered),
   (.pending, .cancelled), (.processing, .cancelled), (.shipped, .cancelled),
   (.cancelled, .pending)]

/-- Modelled from the spec: the error taxonomy of section 7 restricted to
the cases the claims mention. -/
inductive OrderError where
  | validationError
  | invalidTransition
  | insufficientInventory
  | notFound
deriving DecidableEq

/-- Modelled from the spec: an order payload as the Validator receives it
(section 4.1). -/
structure OrderPayload where
  id : String
  user_id : Int
  items : List OrderItem
  total : Int
  status : OrderStatus
deriving DecidableEq

def itemCountOk (p : OrderPayload) : Bool :=
  decide (1 ≤ p.items.length ∧ p.items.length ≤ 100)

def quantitiesOk (p : OrderPayload) : Bool :=
  p.items.all fun it => decide (1 ≤ it.quantity ∧ it.quantity ≤ 10000)

def pricesOk (p : OrderPayload) : Bool :=
  p.items.all fun it => decide (0 ≤ it.price ∧ it.price ≤ 1000000)

def distinctSkus : List OrderItem → Bool
  | [] => true
  | it :: rest => !(rest.any fun o => o.sku == it.sku) && distinctSkus rest

def totalMatches (p : OrderPayload) : Bool :=
  decide (p.total = computeTotal p.items)

/-- Modelled from the spec: the Validator of section 4.1 — item count in
[1,100], no duplicate SKUs, quantity in [1,10000], price in [0,1000000],
total equal to the computed sum; pure, no side effects. -/
def validate (p : OrderPayload) : Except OrderError Unit :=
  if itemCountOk p && distinctSkus p.items && quantitiesOk p && pricesOk p && totalMatches p
  then Except.ok () else Except.error OrderError.validationError

/-- Modelled from the spec: a persisted order (section 3). -/
structure OrderRec where
  id : String
  user_id : Int
  items : List OrderItem
  total : Int
  status : OrderStatus
deriving DecidableEq

/-- Modelled from the spec: an audit event of the Event Log (section 3). -/
structure OrderEvent where
  order_id : String
  event_type : String
  old_value : Option OrderStatus
  new_value : Option OrderStatus
deriving DecidableEq

/-- Modelled from the spec: the persistent state the orchestrator works
against — the Order Store and the append-only Event Log. -/
structure SvcState where
  store : List OrderRec
  events : List OrderEvent
deriving DecidableEq

def getOrder (st : SvcState) (oid : String) : Option OrderRec :=
  st.store.find? fun o => o.id == oid

/-- Modelled from the spec: `list(order_id)` of the Event Log, the
timeline of one order (section 4.4). -/
def getTimeline (st : SvcState) (oid : String) : List OrderEvent :=
  st.events.filter fun e => e.order_id == oid

/-- Modelled from the spec: `createOrder` of section 4.3 — validate, then
(when the target status is not `cancelled`) reserve inventory through the
Inventory Client (abstracted as the `reserve` oracle), and only on success
persist the order and append the `created` event. On reservation failure
nothing is persisted or logged and the request fails with
`InsufficientInventory`. -/
def createOrder (reserve : List OrderItem → Bool) (st : SvcState) (p : OrderPayload) :
    SvcState × Except OrderError OrderRec :=
  match validate p with
  | Except.error e => (st, Except.error e)
  | Except.ok _ =>
      if p.status = OrderStatus.cancelled ∨ reserve p.items = true then
        let o : OrderRec := ⟨p.id, p.user_id, p.items, p.total, p.status⟩
        ({ store := st.store ++ [o],
           events := st.events ++ [⟨p.id, "created", none, some p.status⟩] },
         Except.ok o)
      else (st, Except.error OrderError.insufficientInventory)

/-- Modelled from the spec: whether the inventory effect a transition
requires succeeds, given the two Inventory Client oracles. -/
def invEffectOk (reserve release : List OrderItem → Bool) :
    InvEffect → List OrderItem → Bool
  | .noEffect, _ => true
  | .releaseItems, items => release items
  | .reserveItems, items => reserve items

/-- Modelled from the spec: the status-change path of `updateOrder`
(section 4.3) — load the order, consult the state machine, perform the
required inventory effect, and only on success persist the new status and
append the `status_changed` event; on any failure the state is left
untouched. -/
def updateOrderStatus (reserve release : List OrderItem → Bool) (st : SvcState)
    (oid : String) (target : OrderStatus) : SvcState × Except OrderError OrderRec :=
  match getOrder st oid with
  | none => (st, Except.error OrderError.notFound)
  | some o =>
      match legalTransition o.status target with
      | none => (st, Except.error OrderError.invalidTransition)
      | some eff =>
          if invEffectOk reserve release eff o.items = true then
            let o2 : OrderRec := { o with status := target }
            ({ store := st.store.map fun r => if r.id == oid then o2 else r,
               events := st.events ++ [⟨oid, "status_changed", some o.status, some target⟩] },
             Except.ok o2)
          else (st, Except.error OrderError.insufficientInventory)

/-- The update patch type of `web/src/types/index.ts` (`OrderUpdate`): all
fields optional, and no `id` field at all; `items` added because
`handleSubmit` ships the form's items along. -/
structure OrderUpdatePatch where
  user_id : Option Int
  total : Option Int
  status : Option String
  items : Option (List OrderItem)
deriving DecidableEq

/-- The patch the edit form actually submits (`handleSubmit` lines
125-126): `formData` with `id` destructured away. -/
def toPatch (u : OrderUpdatePayload) : OrderUpdatePatch :=
  ⟨some u.user_id, some u.total, some u.status, some u.items⟩

/-- Modelled from the spec: the Order Store applies an update patch
field-wise; the patch carries no id and section 3 declares `id` immutable
once created. -/
def applyOrderUpdate (o : FrontOrder) (u : OrderUpdatePatch) : FrontOrder :=
  { id := o.id
    user_id := u.user_id.getD o.user_id
    total := u.total.getD o.total
    status := u.status.getD o.status
    items := u.items.getD o.items }

/-- Bounds of section 4.1 as the claim states them. -/
def inBounds (p : OrderPayload) : Prop :=
  (1 ≤ p.items.length ∧ p.items.length ≤ 100)
  ∧ ∀ it ∈ p.items,
      (1 ≤ it.quantity ∧ it.quantity ≤ 10000) ∧ (0 ≤ it.price ∧ it.price ≤ 1000000)

instance (p : OrderPayload) : Decidable (inBounds p) :=
  inferInstanceAs (Decidable ((1 ≤ p.items.length ∧ p.items.length ≤ 100)
    ∧ ∀ it ∈ p.items,
        (1 ≤ it.quantity ∧ it.quantity ≤ 10000) ∧ (0 ≤ it.price ∧ it.price ≤ 1000000)))

theorem stepForm_totalInv (f : FormState) (e : FormEvent) (h : totalInv f) :
    totalInv (stepForm f e) := by
  cases e with
  | addItem c =>
      simp only [stepForm, addItem]
      split
      · exact h
      · rfl
  | removeItem i => rfl
  | setId s => exact h
  | setUserId n => exact h
  | setStatus s => exact h

theorem foldl_stepForm_totalInv (evs : List FormEvent) :
    ∀ f : FormState, totalInv f → totalInv (evs.foldl stepForm f) := by
  induction evs with
  | nil => exact fun f h => h
  | cons e rest ih => exact fun f h => ih _ (stepForm_totalInv f e h)

theorem openForm_totalInv (start : Option FrontOrder) : totalInv (openForm start) := by
  cases start <;> rfl

/-- C1: every order payload produced by the order form — whether submitted
through create or through edit, starting from a fresh form or from an
existing order, after any sequence of interactions — carries a total equal
to the sum of `quantity × unit_price` over its items; the total field is
recomputed from the items on every items change and is never supplied
independently. -/
theorem orderForm_submitted_total_eq_sum (start : Option FrontOrder) (evs : List FormEvent) :
    (submitCreate (evs.foldl stepForm (openForm start))).total
        = computeTotal (submitCreate (evs.foldl stepForm (openForm start))).items
    ∧ (submitUpdate (evs.foldl stepForm (openForm start))).total
        = computeTotal (submitUpdate (evs.foldl stepForm (openForm start))).items := by
  have h := foldl_stepForm_totalInv evs (openForm start) (openForm_totalInv start)
  exact ⟨h, h⟩

/-- C8: `addItem` leaves the form unchanged — items and hence the
auto-computed total included — whenever the current item has an empty SKU,
a non-positive quantity, or a non-positive price; in particular an item
with unit price exactly 0 can never be added through this interface. -/
theorem orderForm_addItem_guard (f : FormState) (c : OrderItem)
    (h : c.sku = "" ∨ c.quantity ≤ 0 ∨ c.price ≤ 0) :
    addItem f c = f ∧ (addItem f c).items = f.items ∧ (addItem f c).total = f.total := by
  have hif : addItem f c = f := by
    simp only [addItem]
    exact if_pos h
  exact ⟨hif, by rw [hif], by rw [hif]⟩

/-- Witness for C8: a zero-priced item with a non-empty SKU is rejected. -/
theorem orderForm_addItem_guard_witness :
    addItem (openForm none) ⟨"WIDGET-1", 3, 0⟩ = openForm none
      ∧ (addItem (openForm none) ⟨"WIDGET-1", 3, 0⟩).items = (openForm none).items
      ∧ (addItem (openForm none) ⟨"WIDGET-1", 3, 0⟩).total = (openForm none).total :=
  orderForm_addItem_guard (openForm none) ⟨"WIDGET-1", 3, 0⟩ (by decide)

/-- C4 (failing input): the status select of the order form offers
`completed`, a value outside the specification's five statuses, and the
form submits it verbatim, so the system can produce an order payload whose
status is not one of the five documented values. -/
theorem orderForm_offers_completed_status :
    "completed" ∈ statusOptions
      ∧ "completed" ∉ specStatusNames
      ∧ (submitCreate (stepForm (openForm none) (FormEvent.setStatus "completed"))).status
          = "completed" := by
  decide

theorem rowMatches_eq_true_iff (keys : List String) (term : String) (r : Row) :
    rowMatches keys term r = true ↔ specRowMatch keys term r := by
  simp only [rowMatches, List.any_eq_true, specRowMatch]
  constructor
  · rintro ⟨key, hk, hmatch⟩
    cases hv : getVal r key with
    | none => rw [hv] at hmatch; simp at hmatch
    | some v =>
        rw [hv] at hmatch
        exact ⟨key, hk, v, hv, hmatch⟩
  · rintro ⟨key, hk, v, hv, hmatch⟩
    exact ⟨key, hk, by rw [hv]; exact hmatch⟩

/-- C9: with searching enabled, a non-empty search term and no sort column
selected, the displayed rows are exactly the input rows on which some
search key holds a non-null value whose lowercased string form contains
the lowercased term, in their original relative order; an empty term
returns the input unchanged. -/
theorem dataTable_filter_semantics (data : List Row) (keys : List String) (term : String)
    (h : term ≠ "") :
    displayedRows true keys term (none : Option (Row → Nat)) SortOrder.asc data
        = data.filter (fun r => rowMatches keys term r)
    ∧ List.Sublist
        (displayedRows true keys term (none : Option (Row → Nat)) SortOrder.asc data) data
    ∧ (∀ r : Row,
        r ∈ displayedRows true keys term (none : Option (Row → Nat)) SortOrder.asc data
          ↔ r ∈ data ∧ specRowMatch keys term r)
    ∧ displayedRows true keys "" (none : Option (Row → Nat)) SortOrder.asc data = data := by
  have hbeq : (term == "") = false := beq_eq_false_iff_ne.mpr h
  have h1 : displayedRows true keys term (none : Option (Row → Nat)) SortOrder.asc data
      = data.filter (fun r => rowMatches keys term r) := by
    simp [displayedRows, hbeq]
  refine ⟨h1, ?_, ?_, ?_⟩
  · rw [h1]; exact List.filter_sublist data
  · intro r
    rw [h1, List.mem_filter, rowMatches_eq_true_iff]
  · simp [displayedRows]

/-- Witness for C9 at a concrete table: two rows, search keys `id` and
`status`, term `ab`; only the row whose id contains `AB` survives. -/
theorem dataTable_filter_semantics_witness :
    displayedRows true ["id", "status"] "ab" (none : Option (Row → Nat)) SortOrder.asc
        [[("id", some "ORD-AB1"), ("status", some "pending")],
         [("id", some "x9"), ("status", none)]]
      = List.filter (fun r => rowMatches ["id", "status"] "ab" r)
          [[("id", some "ORD-AB1"), ("status", some "pending")],
           [("id", some "x9"), ("status", none)]] :=
  (dataTable_filter_semantics
    [[("id", some "ORD-AB1"), ("status", some "pending")],
     [("id", some "x9"), ("status", none)]]
    ["id", "status"] "ab" (by decide)).1

/-- C10: when the selected column's values are pairwise distinct, sorting
descending yields exactly the reverse of sorting ascending, and both
results are permutations of the input row array. -/
theorem dataTable_sort_reversal {T K : Type} [LinearOrder K] (key : T → K)
    (data : List T) (hdist : (data.map key).Nodup) :
    sortRows key SortOrder.desc data = (sortRows key SortOrder.asc data).reverse
    ∧ List.Perm (sortRows key SortOrder.asc data) data
    ∧ List.Perm (sortRows key SortOrder.desc data) data := by
  have permA : List.Perm (List.insertionSort (ascRel key) data) data :=
    List.perm_insertionSort _ data
  have permD : List.Perm (List.insertionSort (descRel key) data) data :=
    List.perm_insertionSort _ data
  have sortedA : List.Pairwise (ascRel key) (List.insertionSort (ascRel key) data) :=
    List.sorted_insertionSort _ data
  have sortedD : List.Pairwise (descRel key) (List.insertionSort (descRel key) data) :=
    List.sorted_insertionSort _ data
  have nodupA : ((List.insertionSort (ascRel key) data).map key).Nodup :=
    ((permA.map key).nodup_iff).mpr hdist
  have nodupD : ((List.insertionSort (descRel key) data).map key).Nodup :=
    ((permD.map key).nodup_iff).mpr hdist
  have neA : List.Pairwise (fun a b => key a ≠ key b) (List.insertionSort (ascRel key) data) := by
    rwa [List.Nodup, List.pairwise_map] at nodupA
  have neD : List.Pairwise (fun a b => key a ≠ key b) (List.insertionSort (descRel key) data) := by
    rwa [List.Nodup, List.pairwise_map] at nodupD
  have strictA : List.Pairwise (fun a b => key a < key b) (List.insertionSort (ascRel key) data) :=
    (sortedA.and neA).imp fun hab => lt_of_le_of_ne hab.1 hab.2
  have strictD : List.Pairwise (fun a b => key b < key a) (List.insertionSort (descRel key) data) :=
    (sortedD.and neD).imp fun hab => lt_of_le_of_ne hab.1 hab.2.symm
  have strictRevA :
      List.Pairwise (fun a b => key b < key a) (List.insertionSort (ascRel key) data).reverse := by
    rw [List.pairwise_reverse]
    exact strictA
  have permDrev : List.Perm (List.insertionSort (descRel key) data)
      (List.insertionSort (ascRel key) data).reverse :=
    (permD.trans permA.symm).trans (List.reverse_perm _).symm
  haveI : IsAntisymm T (fun a b => key b < key a) :=
    ⟨fun _ _ h1 h2 => absurd h2 (asymm h1)⟩
  have heq : List.insertionSort (descRel key) data
      = (List.insertionSort (ascRel key) data).reverse :=
    List.eq_of_perm_of_sorted permDrev strictD strictRevA
  exact ⟨heq, permA, permD⟩

/-- Witness for C10: three rows keyed by distinct naturals. -/
theorem dataTable_sort_reversal_witness :
    sortRows (id : Nat → Nat) SortOrder.desc [3, 1, 2]
        = (sortRows (id : Nat → Nat) SortOrder.asc [3, 1, 2]).reverse
      ∧ List.Perm (sortRows (id : Nat → Nat) SortOrder.asc [3, 1, 2]) [3, 1, 2]
      ∧ List.Perm (sortRows (id : Nat → Nat) SortOrder.desc [3, 1, 2]) [3, 1, 2] :=
  dataTable_sort_reversal (id : Nat → Nat) [3, 1, 2] (by decide)

theorem validate_ok_iff (p : OrderPayload) :
    validate p = Except.ok ()
      ↔ (itemCountOk p && distinctSkus p.items && quantitiesOk p && pricesOk p
          && totalMatches p) = true := by
  unfold validate
  split
  next hc => simp [hc]
  next hc => simp [hc]

theorem boundsBools_iff (p : OrderPayload) :
    (itemCountOk p && quantitiesOk p && pricesOk p) = true ↔ inBounds p := by
  simp only [Bool.and_eq_true, itemCountOk, quantitiesOk, pricesOk, List.all_eq_true,
    decide_eq_true_eq, inBounds]
  constructor
  · rintro ⟨⟨hc, hq⟩, hp⟩
    exact ⟨hc, fun it hit => ⟨hq it hit, hp it hit⟩⟩
  · rintro ⟨hc, hqp⟩
    exact ⟨⟨hc, fun it hit => (hqp it hit).1⟩, fun it hit => (hqp it hit).2⟩

/-- C5: the validator accepts a payload only when its item count lies in
[1,100], every quantity in [1,10000] and every price in [0,1000000]; a
payload violating one of the bounds is rejected with a validation error;
and a payload inside all the bounds passes the three bound checks (a unit
price of exactly 0 included). -/
theorem validator_bounds (p : OrderPayload) :
    (validate p = Except.ok () → inBounds p)
    ∧ (¬ inBounds p → validate p = Except.error OrderError.validationError)
    ∧ (inBounds p → (itemCountOk p && quantitiesOk p && pricesOk p) = true) := by
  refine ⟨?_, ?_, fun h => (boundsBools_iff p).mpr h⟩
  · intro hok
    have hc := (validate_ok_iff p).mp hok
    simp only [Bool.and_eq_true] at hc
    exact (boundsBools_iff p).mp (by
      simp only [Bool.and_eq_true]
      exact ⟨⟨hc.1.1.1.1, hc.1.1.2⟩, hc.1.2⟩)
  · intro hnb
    have hb : (itemCountOk p && quantitiesOk p && pricesOk p) = false := by
      rcases Bool.eq_false_or_eq_true (itemCountOk p && quantitiesOk p && pricesOk p) with hx | hx
      · exact absurd ((boundsBools_iff p).mp hx) hnb
      · exact hx
    have hC : (itemCountOk p && distinctSkus p.items && quantitiesOk p && pricesOk p
        && totalMatches p) = false := by
      simp only [Bool.and_eq_false_iff] at hb ⊢
      rcases hb with (hb | hb) | hb
      · exact Or.inl (Or.inl (Or.inl (Or.inl hb)))
      · exact Or.inl (Or.inl (Or.inr hb))
      · exact Or.inl (Or.inr hb)
    simp [validate, hC]

/-- Witness for C5: a one-item payload with quantity 1 and price exactly 0
lies inside all bounds and passes the three bound checks. -/
theorem validator_bounds_witness :
    inBounds ⟨"o1", 1, [⟨"SKU-A", 1, 0⟩], 0, OrderStatus.pending⟩
      ∧ (itemCountOk ⟨"o1", 1, [⟨"SKU-A", 1, 0⟩], 0, OrderStatus.pending⟩
          && quantitiesOk ⟨"o1", 1, [⟨"SKU-A", 1, 0⟩], 0, OrderStatus.pending⟩
          && pricesOk ⟨"o1", 1, [⟨"SKU-A", 1, 0⟩], 0, OrderStatus.pending⟩) = true :=
  ⟨by decide,
   (validator_bounds ⟨"o1", 1, [⟨"SKU-A", 1, 0⟩], 0, OrderStatus.pending⟩).2.2 (by decide)⟩

theorem distinctSkus_eq_true_iff (items : List OrderItem) :
    distinctSkus items = true ↔ (items.map fun it => it.sku).Nodup := by
  induction items with
  | nil => simp [distinctSkus]
  | cons it rest ih =>
      simp only [distinctSkus, Bool.and_eq_true, Bool.not_eq_true', List.any_eq_false,
        beq_eq_false_iff_ne, beq_iff_eq, ne_eq, List.map_cons, List.nodup_cons,
        List.mem_map, ih, not_exists, not_and]

/-- C6: a payload containing two items with the same SKU is rejected by
the validator, and `createOrder` then fails before any side effect — the
outcome does not depend on the inventory oracle and the state is
untouched; a payload whose SKUs are pairwise distinct is not rejected on
this ground. -/
theorem duplicate_skus_rejected (p : OrderPayload) :
    (¬ (p.items.map fun it => it.sku).Nodup →
        validate p = Except.error OrderError.validationError
        ∧ ∀ (reserve : List OrderItem → Bool) (st : SvcState),
            createOrder reserve st p = (st, Except.error OrderError.validationError))
    ∧ ((p.items.map fun it => it.sku).Nodup → distinctSkus p.items = true) := by
  constructor
  · intro hdup
    have hds : distinctSkus p.items = false := by
      cases hx : distinctSkus p.items with
      | false => rfl
      | true => exact absurd ((distinctSkus_eq_true_iff p.items).mp hx) hdup
    have hval : validate p = Except.error OrderError.validationError := by
      unfold validate
      rw [if_neg]
      simp [hds]
    refine ⟨hval, fun reserve st => ?_⟩
    unfold createOrder
    rw [hval]
  · exact fun h => (distinctSkus_eq_true_iff p.items).mpr h

/-- Witness for C6: a payload listing the SKU `SKU-A` twice is rejected by
the validator. -/
theorem duplicate_skus_rejected_witness :
    validate ⟨"o1", 1, [⟨"SKU-A", 1, 2⟩, ⟨"SKU-A", 2, 3⟩], 8, OrderStatus.pending⟩
      = Except.error OrderError.validationError :=
  ((duplicate_skus_rejected
      ⟨"o1", 1, [⟨"SKU-A", 1, 2⟩, ⟨"SKU-A", 2, 3⟩], 8, OrderStatus.pending⟩).1
    (by decide)).1

/-- C2: a requested status change whose `(from, to)` pair is not in the
section 4.2 table is answered with `InvalidTransition` and leaves the
stored order untouched; no transition out of `delivered` is legal, and the
legal pairs are exactly those of the table. -/
theorem illegal_transition_rejected (reserve release : List OrderItem → Bool)
    (st : SvcState) (oid : String) (target : OrderStatus) (o : OrderRec)
    (ho : getOrder st oid = some o) (hlegal : legalTransition o.status target = none) :
    updateOrderStatus reserve release st oid target
        = (st, Except.error OrderError.invalidTransition)
    ∧ getOrder (updateOrderStatus reserve release st oid target).1 oid = some o
    ∧ (∀ t, legalTransition OrderStatus.delivered t = none)
    ∧ (∀ a b, (legalTransition a b).isSome = true ↔ (a, b) ∈ legalPairs) := by
  have h1 : updateOrderStatus reserve release st oid target
      = (st, Except.error OrderError.invalidTransition) := by
    simp only [updateOrderStatus, ho, hlegal]
  exact ⟨h1, by rw [h1]; exact ho, by decide, by decide⟩

/-- Witness for C2: an order already `delivered` cannot move to
`processing`; the state is unchanged. -/
theorem illegal_transition_rejected_witness :
    updateOrderStatus (fun _ => true) (fun _ => true)
        ⟨[⟨"o1", 1, [⟨"SKU-A", 1, 5⟩], 5, OrderStatus.delivered⟩], []⟩ "o1"
        OrderStatus.processing
      = (⟨[⟨"o1", 1, [⟨"SKU-A", 1, 5⟩], 5, OrderStatus.delivered⟩], []⟩,
         Except.error OrderError.invalidTransition) :=
  (illegal_transition_rejected (fun _ => true) (fun _ => true)
      ⟨[⟨"o1", 1, [⟨"SKU-A", 1, 5⟩], 5, OrderStatus.delivered⟩], []⟩ "o1"
      OrderStatus.processing ⟨"o1", 1, [⟨"SKU-A", 1, 5⟩], 5, OrderStatus.delivered⟩
      rfl rfl).1

/-- C3: when the inventory reserve call fails during `createOrder`, the
request fails with `InsufficientInventory`, no order with the payload's id
exists afterwards, and the order's timeline is empty — the persistent
state is exactly the one from before the call. -/
theorem create_reserve_failure_atomic (reserve : List OrderItem → Bool) (st : SvcState)
    (p : OrderPayload) (hval : validate p = Except.ok ())
    (hstatus : p.status ≠ OrderStatus.cancelled) (hres : reserve p.items = false)
    (hord : getOrder st p.id = none) (htl : getTimeline st p.id = []) :
    createOrder reserve st p = (st, Except.error OrderError.insufficientInventory)
    ∧ getOrder (createOrder reserve st p).1 p.id = none
    ∧ getTimeline (createOrder reserve st p).1 p.id = [] := by
  have h1 : createOrder reserve st p
      = (st, Except.error OrderError.insufficientInventory) := by
    unfold createOrder
    rw [hval, if_neg]
    rintro (hc | hr)
    · exact hstatus hc
    · rw [hres] at hr
      exact Bool.false_ne_true hr
  exact ⟨h1, by rw [h1]; exact hord, by rw [h1]; exact htl⟩

/-- Witness for C3: a valid pending one-item payload against an empty
store, with an inventory oracle that refuses the reservation. -/
theorem create_reserve_failure_atomic_witness :
    createOrder (fun _ => false) ⟨[], []⟩ ⟨"o2", 1, [⟨"SKU-A", 1, 1⟩], 1, OrderStatus.pending⟩
        = (⟨[], []⟩, Except.error OrderError.insufficientInventory)
      ∧ getOrder (createOrder (fun _ => false) ⟨[], []⟩
          ⟨"o2", 1, [⟨"SKU-A", 1, 1⟩], 1, OrderStatus.pending⟩).1 "o2" = none
      ∧ getTimeline (createOrder (fun _ => false) ⟨[], []⟩
          ⟨"o2", 1, [⟨"SKU-A", 1, 1⟩], 1, OrderStatus.pending⟩).1 "o2" = [] :=
  create_reserve_failure_atomic (fun _ => false) ⟨[], []⟩
    ⟨"o2", 1, [⟨"SKU-A", 1, 1⟩], 1, OrderStatus.pending⟩ rfl (by decide) rfl rfl rfl

/-- C7: an order's id survives every update — the update patch carries no
id field, in particular the patch the edit form submits, so no sequence of
updates can change the caller-supplied identifier. -/
theorem order_id_immutable (o : FrontOrder) (patches : List OrderUpdatePatch) :
    (patches.foldl applyOrderUpdate o).id = o.id
    ∧ ∀ f : FormState, (applyOrderUpdate o (toPatch (submitUpdate f))).id = o.id := by
  constructor
  · induction patches generalizing o with
    | nil => rfl
    | cons u rest ih => exact (ih (applyOrderUpdate o u)).trans rfl
  · intro f
    rfl

end MicroDemo
